import Mathlib

/-!
# Shallow embedding of `openai-response-to-completion` (src/index.ts)

The adapter translates the legacy `/v1/completions`-style interface onto the
newer Responses API.  We embed its data model and operations:

* record types mirror the TypeScript interfaces; a field typed `T | undefined`
  in TypeScript is modelled as `Option T`, where `none` means the key is
  absent from the record (the code deletes `undefined` keys before sending);
* JavaScript numbers appearing as token counts / `created` timestamps are
  modelled as `Int` / `Nat`; sampling parameters (`temperature`, …) as `Rat`
  (their values are only moved around, never computed with);
* the backend client is modelled by a function `Nat → ResponsesObject` giving
  the response eventually produced by the i-th dispatched call, and every
  read of the wall clock (`Math.floor(Date.now() / 1000)`) is an explicit
  `now : Nat` argument;
* the streaming translator is the event loop of `createCompletionStream`:
  a function from the list of upstream events (in arrival order) to the list
  of handler invocations (`onDelta` / `onError` / `onDone`) it performs, in
  order.
-/

set_option autoImplicit false

namespace CompletionCompat

/-- One role-tagged message (`OpenAI.ChatCompletionMessageParam`): the adapter
only ever reads `role` and `content`. -/
structure ChatMessage where
  role : String
  content : String
  deriving DecidableEq, Repr

/-- `stop?: string | string[]` of the legacy request. -/
inductive StopParam where
  | str (s : String)
  | list (l : List String)
  deriving DecidableEq, Repr

/-- `LegacyCompletionRequest` (src/index.ts:27-39). Optional fields are
`Option`; `none` is an absent key. -/
structure LegacyCompletionRequest where
  model : String
  messages : List ChatMessage
  max_tokens : Option Int := none
  temperature : Option Rat := none
  top_p : Option Rat := none
  stop : Option StopParam := none
  presence_penalty : Option Rat := none
  frequency_penalty : Option Rat := none
  user : Option String := none
  n : Option Int := none
  logprobs : Option Int := none
  deriving DecidableEq, Repr

/-- `LegacyCompletionChoice` (src/index.ts:41-46).  `logprobs` is typed
`null` in the source; we keep an `Option Int` field that the code always
sets to `none`. -/
structure LegacyCompletionChoice where
  text : String
  index : Nat
  logprobs : Option Int
  finish_reason : Option String
  deriving DecidableEq, Repr

/-- `LegacyCompletionUsage` (src/index.ts:48-52): all three counters
optional. -/
structure LegacyCompletionUsage where
  prompt_tokens : Option Int := none
  completion_tokens : Option Int := none
  total_tokens : Option Int := none
  deriving DecidableEq, Repr

/-- `LegacyCompletionResponse` (src/index.ts:54-61).  The constant
`object: "text_completion"` tag is kept as a field. -/
structure LegacyCompletionResponse where
  id : String
  object_tag : String
  created : Nat
  model : String
  choices : List LegacyCompletionChoice
  usage : Option LegacyCompletionUsage
  deriving DecidableEq, Repr

/-- One content entry of a Responses-API output item; the flattener keeps
only entries with `type === "output_text"`. -/
structure OutputContent where
  type : String
  text : String
  deriving DecidableEq, Repr

/-- One output item of a Responses-API response (`responsesObj.output[i]`);
`o.content || []` in the source means an absent `content` behaves as `[]`,
so we model it as a plain list. -/
structure OutputItem where
  content : List OutputContent
  deriving DecidableEq, Repr

/-- Backend usage counters (`responsesObj.usage`). -/
structure ResponsesUsage where
  input_tokens : Option Int := none
  output_tokens : Option Int := none
  total_tokens : Option Int := none
  deriving DecidableEq, Repr

/-- The fields of a Responses-API response object that the adapter reads.
`status_details_type` is `some t` when `responsesObj.status_details` exists
and has field `type = t`; `created` is `none` when the key is absent. -/
structure ResponsesObject where
  id : String
  output : List OutputItem
  status : String
  status_details_type : Option String := none
  created : Option Nat := none
  model : String
  usage : Option ResponsesUsage := none
  deriving DecidableEq, Repr

/-- `LegacyCompletionStreamChunk`'s single choice entry (src/index.ts:66-70). -/
structure StreamChunkChoice where
  text : String
  index : Nat
  finish_reason : Option String
  deriving DecidableEq, Repr

/-- `LegacyCompletionStreamChunk` (src/index.ts:63-71); `id` is optional. -/
structure LegacyCompletionStreamChunk where
  id : Option String
  object_tag : String
  choices : List StreamChunkChoice
  deriving DecidableEq, Repr

/-- Resolved adapter options (the `Required<CompletionAdapterOptions>` the
constructor stores after applying `|| default` to each entry;
src/index.ts:168-174).  `attachRawResponses` only controls an untyped
diagnostic attachment and is not modelled. -/
structure AdapterOptions where
  multiStrategy : String
  promptSplitDelimiter : String
  promptSplitInstruction : String
  deriving DecidableEq, Repr

/-- Constructor-time options (`CompletionAdapterOptions`), before defaults. -/
structure CompletionAdapterOptions where
  multiStrategy : Option String := none
  promptSplitDelimiter : Option String := none
  promptSplitInstruction : Option String := none
  deriving DecidableEq, Repr

/-- JavaScript `v || d` on an optional string: an absent or empty (falsy)
string yields the default. -/
def jsOrString (v : Option String) (d : String) : String :=
  match v with
  | none => d
  | some s => if s = "" then d else s

/-- The constructor of `OpenAICompletionCompat` (src/index.ts:165-175):
each option defaults via `||`. -/
def resolveOptions (o : CompletionAdapterOptions) : AdapterOptions :=
  { multiStrategy := jsOrString o.multiStrategy "first_only"
    promptSplitDelimiter := jsOrString o.promptSplitDelimiter "\n"
    promptSplitInstruction :=
      jsOrString o.promptSplitInstruction
        "请生成 \x7bn\x7d 条结果，每条独立一行，不要额外解释。" }

/-- The translated backend request built by `completionRequestToResponses`
(src/index.ts:84-119) after its two deletion passes.  `none` models a key
the code removed (its value was `undefined`); `metadata` is `none` when the
sub-object was deleted. -/
structure BackendRequest where
  model : String
  input : List ChatMessage
  max_output_tokens : Option Int
  temperature : Option Rat
  top_p : Option Rat
  stop : Option StopParam
  presence_penalty : Option Rat
  frequency_penalty : Option Rat
  metadata : Option Unit
  deriving DecidableEq, Repr

/-- `completionRequestToResponses` (src/index.ts:84-119): renames
`messages → input` and `max_tokens → max_output_tokens`, copies the sampling
parameters, then deletes every `undefined` key (here: an `Option` field keeps
its `none`), and finally deletes `metadata` because every one of its entries
(there are none: both are commented out in the source) is `null`/`undefined`,
so the `Object.keys(...).every(...)` guard at line 115 is vacuously true. -/
def completionRequestToResponses (legacyReq : LegacyCompletionRequest) :
    BackendRequest :=
  { model := legacyReq.model
    input := legacyReq.messages
    max_output_tokens := legacyReq.max_tokens
    temperature := legacyReq.temperature
    top_p := legacyReq.top_p
    stop := legacyReq.stop
    presence_penalty := legacyReq.presence_penalty
    frequency_penalty := legacyReq.frequency_penalty
    metadata := none }

/-- The concatenated `output_text` of a backend response
(src/index.ts:122-128): every `output_text`-typed content entry of every
output item, joined with no separator. -/
def allText (responsesObj : ResponsesObject) : String :=
  String.join
    (responsesObj.output.flatMap fun o =>
      (o.content.filter fun c => c.type = "output_text").map fun c => c.text)

/-- The flattened finish reason (src/index.ts:130-133): `"stop"` when
`status === "completed"`, else `status_details.type` when `status_details`
exists and its `type` is truthy (a present, non-empty string), else
`"stop"`. -/
def finishReason (responsesObj : ResponsesObject) : String :=
  if responsesObj.status = "completed" then "stop"
  else
    match responsesObj.status_details_type with
    | some t => if t = "" then "stop" else t
    | none => "stop"

/-- `responsesObj.created || Math.floor(Date.now() / 1000)`
(src/index.ts:138): an absent — or zero, since `0` is falsy — timestamp
falls back to the wall clock reading `now`. -/
def createdValue (responsesObj : ResponsesObject) (now : Nat) : Nat :=
  match responsesObj.created with
  | some c => if c = 0 then now else c
  | none => now

/-- The single choice built by the flattener (the record literal at
src/index.ts:141-146). -/
def flatChoice (responsesObj : ResponsesObject) : LegacyCompletionChoice :=
  { text := allText responsesObj
    index := 0
    logprobs := none
    finish_reason := some (finishReason responsesObj) }

/-- `responsesToCompletion` (src/index.ts:121-154).  `now` is the value of
`Math.floor(Date.now() / 1000)` at the moment of the call.  The usage object
literal is always present; its fields are the optional backend counters,
passed through without zero-coercion. -/
def responsesToCompletion (responsesObj : ResponsesObject) (now : Nat) :
    LegacyCompletionResponse :=
  { id := responsesObj.id
    object_tag := "text_completion"
    created := createdValue responsesObj now
    model := responsesObj.model
    choices := [flatChoice responsesObj]
    usage := some
      { prompt_tokens := responsesObj.usage.bind fun u => u.input_tokens
        completion_tokens := responsesObj.usage.bind fun u => u.output_tokens
        total_tokens := responsesObj.usage.bind fun u => u.total_tokens } }

/-- `sum` (src/index.ts:156-158): folds `+` over the list, treating every
non-number (`undefined`/`null`, here `none`) as `0`. -/
def sumTokens (nums : List (Option Int)) : Int :=
  nums.foldl (fun acc v => acc + v.getD 0) 0

/-! ## JavaScript string primitives

`String.prototype.split` with a string separator and `String.prototype.trim`,
modelled over `List Char`.  The split recursion is driven by an explicit fuel
argument (one unit per consumed character) so that concrete instances reduce
inside the kernel; `jsSplit` always supplies enough fuel. -/

/-- Whitespace for `trim` (the ASCII cases; the adapter never feeds other
whitespace). -/
def isJsSpace (c : Char) : Bool :=
  c = ' ' || c = '\t' || c = '\n' || c = '\r' || c = '\x0b' || c = '\x0c'

/-- `String.prototype.trim`: drop whitespace from both ends. -/
def jsTrim (s : String) : String :=
  String.mk (((s.toList.dropWhile isJsSpace).reverse.dropWhile isJsSpace).reverse)

/-- Split a character list at every leftmost, non-overlapping occurrence of
`sep` (assumed nonempty; every step consumes at least one character, so
`fuel := l.length` never runs out). -/
def splitListFuel (sep : List Char) : Nat → List Char → List (List Char)
  | _, [] => [[]]
  | 0, l => [l]
  | Nat.succ fuel, c :: rest =>
    if sep.isPrefixOf (c :: rest) then
      [] :: splitListFuel sep fuel ((c :: rest).drop sep.length)
    else
      match splitListFuel sep fuel rest with
      | [] => [[c]]
      | seg :: segs => (c :: seg) :: segs

/-- `s.split(sep)` of JavaScript for a string separator: splitting by the
empty string yields the list of characters, otherwise the segments between
leftmost non-overlapping occurrences of `sep` (so `"".split(sep) = [""]`,
and a trailing separator yields a trailing empty segment). -/
def jsSplit (s sep : String) : List String :=
  if sep = "" then s.toList.map fun c => String.mk [c]
  else (splitListFuel sep.toList s.toList.length s.toList).map String.mk

/-! ## Multi-result strategies -/

/-- `_multiParallel` (src/index.ts:310-341).  `backend i` is the response of
the i-th dispatched call (all calls share one request body, built from the
legacy request with `n` forced to 1; the body itself is not observed by the
merge) and `nows i` the clock reading when that result is flattened.  The
merge reads `legacyResults[0]`, which throws on an empty array — modelled by
`none`. -/
def multiParallel (k : Nat) (backend : Nat → ResponsesObject)
    (nows : Nat → Nat) : Option LegacyCompletionResponse :=
  let legacyResults :=
    (List.range k).map fun i => responsesToCompletion (backend i) (nows i)
  legacyResults.head?.map fun first =>
    { id := first.id
      object_tag := "text_completion"
      created := first.created
      model := first.model
      choices := legacyResults.enum.map fun p =>
        { p.2.choices.headD ⟨"", 0, none, none⟩ with index := p.1 }
      usage := some
        { prompt_tokens := some (sumTokens (legacyResults.map fun r =>
            r.usage.bind fun u => u.prompt_tokens))
          completion_tokens := some (sumTokens (legacyResults.map fun r =>
            r.usage.bind fun u => u.completion_tokens))
          total_tokens := some (sumTokens (legacyResults.map fun r =>
            r.usage.bind fun u => u.total_tokens)) } }

/-- `Array.prototype.slice(0, n)` on a list: a negative end offset counts
from the end of the array (src/index.ts:364 can reach this with `n ≤ 0`). -/
def jsSliceTo (l : List String) (n : Int) : List String :=
  l.take (if n < 0 then ((l.length : Int) + n).toNat else n.toNat)

/-- `this.opts.promptSplitDelimiter || "\n"` (src/index.ts:348): the stored
delimiter, falling back to newline when it is empty (falsy). -/
def effectiveDelimiter (opts : AdapterOptions) : String :=
  if opts.promptSplitDelimiter = "" then "\n" else opts.promptSplitDelimiter

/-- The combined prompt synthesized by `_multiPromptSplit`
(src/index.ts:347-350): original message contents joined by the delimiter,
the instruction template with `{n}` substituted, and a line-count directive. -/
def promptSplitCombinedPrompt (opts : AdapterOptions)
    (legacyReq : LegacyCompletionRequest) (n : Int) : String :=
  let instruction := opts.promptSplitInstruction.replace "\x7bn\x7d" (toString n)
  let delimiter := effectiveDelimiter opts
  String.intercalate delimiter (legacyReq.messages.map fun m => m.content)
    ++ "\n\n" ++ instruction ++ "\n（输出每条占一行，共 " ++ toString n ++ " 行）"

/-- `_multiPromptSplit` (src/index.ts:343-384), given the single backend
response `backendResp` to the synthesized request and the clock reading
`now` of its flattening.  The whole flattened text is first trimmed, then
split by the delimiter, each segment trimmed, empty segments dropped
(`filter(Boolean)`), then sliced to `n` when longer and padded with `""`
while shorter. -/
def multiPromptSplit (opts : AdapterOptions) (n : Int)
    (backendResp : ResponsesObject) (now : Nat) : LegacyCompletionResponse :=
  let delimiter := effectiveDelimiter opts
  let legacySingle := responsesToCompletion backendResp now
  let rawText := jsTrim (legacySingle.choices.headD ⟨"", 0, none, none⟩).text
  let lines0 := ((jsSplit rawText delimiter).map jsTrim).filter fun l => l ≠ ""
  let lines1 := if (lines0.length : Int) > n then jsSliceTo lines0 n else lines0
  let lines2 := lines1 ++ List.replicate (n.toNat - lines1.length) ""
  { id := legacySingle.id
    object_tag := "text_completion"
    created := legacySingle.created
    model := legacySingle.model
    choices := lines2.enum.map fun p =>
      { text := p.2, index := p.1, logprobs := none, finish_reason := some "stop" }
    usage := legacySingle.usage }

/-- `createCompletion` (src/index.ts:178-209).  Returns the produced legacy
response (`none` when the call throws, i.e. the parallel merge on an empty
result array) paired with the number of backend calls performed.  `backend`
and `nows` are indexed by dispatch order as in `multiParallel`; single-call
paths use index 0. -/
def createCompletion (opts : AdapterOptions)
    (legacyReq : LegacyCompletionRequest) (backend : Nat → ResponsesObject)
    (nows : Nat → Nat) : Option LegacyCompletionResponse × Nat :=
  let n : Int := legacyReq.n.getD 1
  if n = 1 ∨ opts.multiStrategy = "first_only" then
    (some (responsesToCompletion (backend 0) (nows 0)), 1)
  else if opts.multiStrategy = "parallel" then
    (multiParallel n.toNat backend nows, n.toNat)
  else if opts.multiStrategy = "prompt_split" then
    (some (multiPromptSplit opts n (backend 0) (nows 0)), 1)
  else
    (some (responsesToCompletion (backend 0) (nows 0)), 1)

/-! ## Stream translator -/

/-- One upstream event of the Responses streaming API, as discriminated by
the `switch (event.type)` at src/index.ts:240.  A text delta carries
`item_id` and an optional `delta` (the code reads `event.delta || ""`); a
failure carries the payload passed to `onError` (`event.response || event`),
kept opaque; `otherEvent` stands for every event type the switch ignores. -/
inductive StreamEvent where
  | outputTextDelta (item_id : String) (delta : Option String)
  | outputTextDone
  | completed (response : ResponsesObject)
  | failed (payload : String)
  | otherEvent
  deriving DecidableEq, Repr

/-- One handler invocation performed by the stream loop, in order. -/
inductive StreamOutput where
  | onDelta (chunk : LegacyCompletionStreamChunk)
  | onError (payload : String)
  | onDone (finalResp : LegacyCompletionResponse)
  deriving DecidableEq, Repr

/-- The mutable state of the stream loop (src/index.ts:230-231). -/
structure StreamLoopState where
  finalResponse : Option ResponsesObject
  fullText : String
  deriving DecidableEq, Repr

/-- The `for await` loop of `createCompletionStream` (src/index.ts:239-267):
processes events strictly in arrival order, returning the handler
invocations it performs and the final loop state.  Note the `failed` case
invokes `onError` but does not leave the loop. -/
def runStreamLoop : List StreamEvent → StreamLoopState →
    List StreamOutput × StreamLoopState
  | [], st => ([], st)
  | e :: rest, st =>
    match e with
    | .outputTextDelta item_id d =>
      let delta := d.getD ""
      let chunk : LegacyCompletionStreamChunk :=
        { id := some item_id
          object_tag := "text_completion.chunk"
          choices := [{ text := delta, index := 0, finish_reason := none }] }
      let next := runStreamLoop rest { st with fullText := st.fullText ++ delta }
      (StreamOutput.onDelta chunk :: next.1, next.2)
    | .outputTextDone => runStreamLoop rest st
    | .completed r => runStreamLoop rest { st with finalResponse := some r }
    | .failed p =>
      let next := runStreamLoop rest st
      (StreamOutput.onError p :: next.1, next.2)
    | .otherEvent => runStreamLoop rest st

/-- The synthetic final record emitted when the stream ended without a
completed event but accumulated text (src/index.ts:277-289): placeholder id
`"unknown"`, the request's model, the full accumulated text, finish reason
`"stop"` and an empty usage object. -/
def syntheticFinal (legacyReq : LegacyCompletionRequest) (fullText : String)
    (now : Nat) : LegacyCompletionResponse :=
  { id := "unknown"
    object_tag := "text_completion"
    created := now
    model := legacyReq.model
    choices := [{ text := fullText, index := 0, logprobs := none,
                  finish_reason := some "stop" }]
    usage := some {} }

/-- The after-loop finalization of `createCompletionStream`
(src/index.ts:270-291): with a recorded completed response, flatten it and
overwrite the first choice's text with the accumulated text (`覆盖拼接`,
line 272); otherwise emit the synthetic final record when any text was
accumulated, and nothing when not. -/
def finalizeStream (legacyReq : LegacyCompletionRequest)
    (st : StreamLoopState) (now : Nat) : List StreamOutput :=
  match st.finalResponse with
  | some r =>
    let legacy := responsesToCompletion r now
    [StreamOutput.onDone
      { legacy with choices :=
          match legacy.choices with
          | [] => []
          | c :: cs => { c with text := st.fullText } :: cs }]
  | none =>
    if st.fullText.length > 0 then
      [StreamOutput.onDone (syntheticFinal legacyReq st.fullText now)]
    else []

/-- `createCompletionStream`'s translation of a full upstream event list
(src/index.ts:237-295): the loop's handler invocations followed by the
finalization.  `now` is the clock reading at finalization time. -/
def createCompletionStream (legacyReq : LegacyCompletionRequest)
    (events : List StreamEvent) (now : Nat) : List StreamOutput :=
  let r := runStreamLoop events { finalResponse := none, fullText := "" }
  r.1 ++ finalizeStream legacyReq r.2 now

/-- The accumulated text after running the loop on `events` from the initial
state. -/
def streamAccum (events : List StreamEvent) : String :=
  (runStreamLoop events { finalResponse := none, fullText := "" }).2.fullText

/-- Whether an event is a `response.completed` event. -/
def isCompletedEvent : StreamEvent → Bool
  | .completed _ => true
  | _ => false

/-- Whether a handler invocation is an `onDone` call. -/
def isDoneOutput : StreamOutput → Bool
  | .onDone _ => true
  | _ => false

/-! ## Spec-side definitions (for comparison against the code)

These two follow the spec's words for the prompt-split post-processing —
"split its text by the same delimiter, trim each segment, drop empty
segments, then truncate to at most `n` segments or pad with empty-string
segments until exactly `n`" — applied to the flattened text as the spec
states it, i.e. without first trimming the whole text. -/

/-- Modelled from the spec: split by the delimiter, trim each segment, drop
empty segments. -/
def specSplitSegments (delimiter text : String) : List String :=
  ((jsSplit text delimiter).map jsTrim).filter fun l => l ≠ ""

/-- Modelled from the spec: truncate to at most `n` segments, or pad with
empty strings until exactly `n`. -/
def specTruncatePad (segs : List String) (n : Nat) : List String :=
  segs.take n ++ List.replicate (n - segs.length) ""

/-! ## Concrete sample inputs used by counterexamples and witnesses -/

/-- A minimal legacy request. -/
def sampleReq : LegacyCompletionRequest :=
  { model := "m", messages := [{ role := "user", content := "hi" }] }

/-- A backend response with an absent `created` timestamp. -/
def respNoCreated : ResponsesObject :=
  { id := "r0", output := [⟨[⟨"output_text", "t"⟩]⟩], status := "completed",
    model := "m" }

/-- A backend response with a present, nonzero `created` timestamp. -/
def respWithCreated : ResponsesObject :=
  { id := "r0", output := [⟨[⟨"output_text", "t"⟩]⟩], status := "completed",
    created := some 5, model := "m" }

/-- Legacy request asking for `n = 0` results (claim C3's edge). -/
def reqNZero : LegacyCompletionRequest :=
  { model := "m", messages := [{ role := "user", content := "hi" }],
    n := some 0 }

/-- Adapter options configured for the parallel strategy. -/
def parallelOpts : AdapterOptions :=
  { multiStrategy := "parallel", promptSplitDelimiter := "\n",
    promptSplitInstruction := "i" }

/-- Adapter options for the prompt-split strategy with delimiter `"X "`,
whose trailing space interacts with the pre-split trim (claim C4). -/
def splitOptsX : AdapterOptions :=
  { multiStrategy := "prompt_split", promptSplitDelimiter := "X ",
    promptSplitInstruction := "i" }

/-- Adapter options for the prompt-split strategy with the default
delimiter. -/
def splitOptsNl : AdapterOptions :=
  { multiStrategy := "prompt_split", promptSplitDelimiter := "\n",
    promptSplitInstruction := "i" }

/-- Backend response whose flattened text ends in a partial delimiter
occurrence `"X "`: text `"aX bX "`. -/
def respTrailingDelim : ResponsesObject :=
  { id := "r1", output := [⟨[⟨"output_text", "aX bX "⟩]⟩],
    status := "completed", created := some 7, model := "m" }

/-- Backend response whose flattened text splits into exactly two non-empty
segments by the default delimiter. -/
def respTwoLines : ResponsesObject :=
  { id := "r2", output := [⟨[⟨"output_text", "one\ntwo"⟩]⟩],
    status := "completed", created := some 7, model := "m" }

/-- Three backend branch responses reporting `output_tokens` 10, 12 and
missing, for the parallel usage example. -/
def usageBranches : Nat → ResponsesObject
  | 0 => { id := "b0", output := [], status := "completed", created := some 3,
           model := "m",
           usage := some { input_tokens := some 1, output_tokens := some 10,
                           total_tokens := some 11 } }
  | 1 => { id := "b1", output := [], status := "completed", created := some 3,
           model := "m",
           usage := some { input_tokens := some 2, output_tokens := some 12,
                           total_tokens := some 14 } }
  | _ => { id := "b2", output := [], status := "completed", created := some 3,
           model := "m" }

/-- The upstream event list of the spec's streaming example: three deltas
then a completed event. -/
def helloEvents : List StreamEvent :=
  [.outputTextDelta "i" (some "Hel"), .outputTextDelta "i" (some "lo "),
   .outputTextDelta "i" (some "world"), .completed respWithCreated]

/-- A stream in which a delta event arrives after a failed event. -/
def failThenDeltaEvents : List StreamEvent :=
  [.failed "boom", .outputTextDelta "i" (some "x")]

/-- A stream carrying one delta and then aborted before any completed
event. -/
def abortedEvents : List StreamEvent :=
  [.outputTextDelta "i" (some "partial")]

/-! ## Helper lemmas (shared) -/

theorem string_foldl_append (l : List String) :
    ∀ a : String, l.foldl (· ++ ·) a = a ++ l.foldl (· ++ ·) "" := by
  induction l with
  | nil => intro a; simp
  | cons b t ih =>
    intro a
    simp only [List.foldl_cons]
    rw [ih (a ++ b), ih ("" ++ b), String.empty_append, String.append_assoc]

theorem join_cons (a : String) (l : List String) :
    String.join (a :: l) = a ++ String.join l := by
  simp only [String.join, List.foldl_cons]
  rw [string_foldl_append l ("" ++ a), String.empty_append]

theorem enum_map_range {α β : Type} (g : Nat → α) (f : Nat × α → β)
    (k : Nat) :
    (((List.range k).map g).enum.map f)
      = (List.range k).map fun i => f (i, g i) := by
  apply List.ext_getElem
  · simp
  · intro i h1 h2
    simp

theorem sumTokens_eq_sum (l : List (Option Int)) :
    sumTokens l = (l.map fun v => v.getD 0).sum := by
  suffices h : ∀ a : Int, l.foldl (fun acc v => acc + v.getD 0) a
      = a + (l.map fun v => v.getD 0).sum by
    simpa [sumTokens] using h 0
  induction l with
  | nil => intro a; simp
  | cons b t ih =>
    intro a
    simp only [List.foldl_cons, List.map_cons, List.sum_cons]
    rw [ih]
    ring

/-! ## Claim C8 — request translation -/

/-- C8: the request translator renames `messages` to `input` and
`max_tokens` to `max_output_tokens`, passes `temperature`, `top_p`, `stop`,
`presence_penalty` and `frequency_penalty` through unchanged, keeps absent
fields absent (`none` models a key removed from the record), and the
`metadata` sub-object is entirely absent (all of its entries are absent). -/
theorem request_translation_fields (legacyReq : LegacyCompletionRequest) :
    (completionRequestToResponses legacyReq).model = legacyReq.model
    ∧ (completionRequestToResponses legacyReq).input = legacyReq.messages
    ∧ (completionRequestToResponses legacyReq).max_output_tokens
        = legacyReq.max_tokens
    ∧ (completionRequestToResponses legacyReq).temperature
        = legacyReq.temperature
    ∧ (completionRequestToResponses legacyReq).top_p = legacyReq.top_p
    ∧ (completionRequestToResponses legacyReq).stop = legacyReq.stop
    ∧ (completionRequestToResponses legacyReq).presence_penalty
        = legacyReq.presence_penalty
    ∧ (completionRequestToResponses legacyReq).frequency_penalty
        = legacyReq.frequency_penalty
    ∧ (completionRequestToResponses legacyReq).metadata = none :=
  ⟨rfl, rfl, rfl, rfl, rfl, rfl, rfl, rfl, rfl⟩

/-! ## Claim C9 — the flattener and the wall clock -/

/-- C9 (counterexample): flattening the same backend response at two
different wall-clock instants yields different `LegacyResponse` values when
the backend `created` timestamp is absent — the flattener falls back to the
clock, so it is not deterministic in that case. -/
theorem flatten_wallclock_counterexample :
    responsesToCompletion respNoCreated 1 ≠ responsesToCompletion respNoCreated 2 := by
  decide

/-- C9 (amended): for a backend response whose `created` timestamp is
present and nonzero, flattening is independent of the wall-clock reading,
so flattening the same response twice yields structurally equal values. -/
theorem flatten_deterministic_of_created (r : ResponsesObject) (n1 n2 : Nat)
    (h : ∃ c, r.created = some c ∧ c ≠ 0) :
    responsesToCompletion r n1 = responsesToCompletion r n2 := by
  obtain ⟨c, hc, h0⟩ := h
  simp [responsesToCompletion, createdValue, hc, h0]

/-- C9 witness: the amended determinism theorem at a concrete response with
`created = 5`, instants 1 and 2. -/
theorem flatten_deterministic_of_created_witness :
    (∃ c, respWithCreated.created = some c ∧ c ≠ 0)
    ∧ responsesToCompletion respWithCreated 1
        = responsesToCompletion respWithCreated 2 :=
  ⟨⟨5, rfl, by decide⟩,
   flatten_deterministic_of_created respWithCreated 1 2 ⟨5, rfl, by decide⟩⟩

/-! ## Claim C10 — prompt-split usage passthrough -/

/-- C10: under the prompt-split strategy the merged response's usage is the
single backend call's flattened usage passed through unchanged: each field
equals the corresponding backend counter, absent stays absent (no
zero-coercion, no scaling by `n`). -/
theorem prompt_split_usage_passthrough (opts : AdapterOptions) (n : Int)
    (backendResp : ResponsesObject) (now : Nat) :
    (multiPromptSplit opts n backendResp now).usage
        = (responsesToCompletion backendResp now).usage
    ∧ (multiPromptSplit opts n backendResp now).usage
        = some { prompt_tokens := backendResp.usage.bind fun u => u.input_tokens
                 completion_tokens := backendResp.usage.bind fun u => u.output_tokens
                 total_tokens := backendResp.usage.bind fun u => u.total_tokens } :=
  ⟨rfl, rfl⟩

/-! ## Claim C3 — single-call paths of `createCompletion` -/

/-- C3 (counterexample): a legacy request with `n = 0` (which satisfies the
claim's `n ≤ 1`) under the parallel strategy performs zero backend calls and
throws (`legacyResults[0]` on an empty array, modelled as `none`) instead of
performing one call and returning a single-choice response: the code guards
with `n === 1`, not `n <= 1`. -/
theorem single_call_counterexample :
    createCompletion parallelOpts reqNZero (fun _ => respWithCreated)
      (fun _ => 0) = (none, 0) := by
  decide

/-- C3 (amended): for every legacy request with `n` absent or `n = 1`, and
for every legacy request when the configured strategy is `first_only`,
`createCompletion` performs exactly one backend call and returns a response
with exactly one choice, at index 0, with `logprobs` null. -/
theorem single_call_single_choice (opts : AdapterOptions)
    (legacyReq : LegacyCompletionRequest) (backend : Nat → ResponsesObject)
    (nows : Nat → Nat)
    (h : legacyReq.n = none ∨ legacyReq.n = some 1
          ∨ opts.multiStrategy = "first_only") :
    (createCompletion opts legacyReq backend nows).2 = 1
    ∧ ∃ resp, (createCompletion opts legacyReq backend nows).1 = some resp
        ∧ resp.choices.length = 1
        ∧ ∀ c ∈ resp.choices, c.index = 0 ∧ c.logprobs = none := by
  have hcond : (legacyReq.n.getD 1 = 1) ∨ opts.multiStrategy = "first_only" := by
    rcases h with h | h | h
    · left; rw [h]; rfl
    · left; rw [h]; rfl
    · right; exact h
  have hmain : createCompletion opts legacyReq backend nows
      = (some (responsesToCompletion (backend 0) (nows 0)), 1) := by
    simp only [createCompletion, if_pos hcond]
  rw [hmain]
  refine ⟨rfl, responsesToCompletion (backend 0) (nows 0), rfl, rfl, ?_⟩
  intro c hc
  simp only [responsesToCompletion, List.mem_singleton] at hc
  subst hc
  exact ⟨rfl, rfl⟩

/-- C3 witness: the amended single-call theorem at a request with `n`
absent, under the parallel strategy. -/
theorem single_call_single_choice_witness :
    (sampleReq.n = none ∨ sampleReq.n = some 1
      ∨ parallelOpts.multiStrategy = "first_only")
    ∧ ((createCompletion parallelOpts sampleReq (fun _ => respWithCreated)
          (fun _ => 0)).2 = 1
       ∧ ∃ resp, (createCompletion parallelOpts sampleReq
            (fun _ => respWithCreated) (fun _ => 0)).1 = some resp
          ∧ resp.choices.length = 1
          ∧ ∀ c ∈ resp.choices, c.index = 0 ∧ c.logprobs = none) :=
  ⟨Or.inl rfl,
   single_call_single_choice parallelOpts sampleReq (fun _ => respWithCreated)
     (fun _ => 0) (Or.inl rfl)⟩

/-! ## Claims C5/C6 — the parallel merge -/

theorem head?_range_map {α : Type} (f : Nat → α) (k : Nat) (h : 0 < k) :
    ((List.range k).map f).head? = some (f 0) := by
  obtain ⟨k', rfl⟩ : ∃ k', k = k' + 1 := ⟨k - 1, by omega⟩
  rw [List.range_succ_eq_map]
  simp

/-- The parallel merge, written out for a positive branch count: id,
created and model come from the first flattened result, choices are the
flattened single choices re-indexed by dispatch position, usage fields are
the `sumTokens` of the corresponding backend counters. -/
theorem multiParallel_pos (k : Nat) (backend : Nat → ResponsesObject)
    (nows : Nat → Nat) (h : 0 < k) :
    multiParallel k backend nows = some
      { id := (responsesToCompletion (backend 0) (nows 0)).id
        object_tag := "text_completion"
        created := (responsesToCompletion (backend 0) (nows 0)).created
        model := (responsesToCompletion (backend 0) (nows 0)).model
        choices := (List.range k).map fun i =>
          { flatChoice (backend i) with index := i }
        usage := some
          { prompt_tokens := some (sumTokens ((List.range k).map fun i =>
              (backend i).usage.bind fun u => u.input_tokens))
            completion_tokens := some (sumTokens ((List.range k).map fun i =>
              (backend i).usage.bind fun u => u.output_tokens))
            total_tokens := some (sumTokens ((List.range k).map fun i =>
              (backend i).usage.bind fun u => u.total_tokens)) } } := by
  simp only [multiParallel]
  rw [head?_range_map _ k h, Option.map_some']
  refine congrArg some ?_
  simp only [LegacyCompletionResponse.mk.injEq, true_and]
  constructor
  · rw [enum_map_range]
    rfl
  · simp only [List.map_map]
    rfl

/-- C5: under the parallel strategy with `n > 1` the merged response's
choices are the `n` flattened single choices re-indexed `0..n-1` in
call-dispatch order (`backend i` is the i-th dispatched call), and the
merged `id`, `created` and `model` are taken from the first result. -/
theorem parallel_merge_choices (k : Nat) (backend : Nat → ResponsesObject)
    (nows : Nat → Nat) (h : 1 < k) :
    ∃ m, multiParallel k backend nows = some m
      ∧ m.id = (responsesToCompletion (backend 0) (nows 0)).id
      ∧ m.created = (responsesToCompletion (backend 0) (nows 0)).created
      ∧ m.model = (responsesToCompletion (backend 0) (nows 0)).model
      ∧ m.choices = ((List.range k).map fun i =>
          { flatChoice (backend i) with index := i }) :=
  ⟨_, multiParallel_pos k backend nows (by omega), rfl, rfl, rfl, rfl⟩

/-- C5 witness: the parallel merge theorem at `k = 3` with three concrete
branch responses. -/
theorem parallel_merge_choices_witness :
    1 < 3
    ∧ ∃ m, multiParallel 3 usageBranches (fun _ => 0) = some m
        ∧ m.id = (responsesToCompletion (usageBranches 0) 0).id
        ∧ m.created = (responsesToCompletion (usageBranches 0) 0).created
        ∧ m.model = (responsesToCompletion (usageBranches 0) 0).model
        ∧ m.choices = ((List.range 3).map fun i =>
            { flatChoice (usageBranches i) with index := i }) :=
  ⟨by decide, parallel_merge_choices 3 usageBranches (fun _ => 0) (by decide)⟩

/-- C6: under the parallel strategy with `n > 1` each merged usage field is
the arithmetic sum of the corresponding backend counter across the `n`
branch results, an absent counter contributing zero. -/
theorem parallel_usage_additivity (k : Nat) (backend : Nat → ResponsesObject)
    (nows : Nat → Nat) (h : 1 < k) :
    ∃ m, multiParallel k backend nows = some m
      ∧ m.usage = some
          { prompt_tokens := some (((List.range k).map fun i =>
              ((backend i).usage.bind fun u => u.input_tokens).getD 0).sum)
            completion_tokens := some (((List.range k).map fun i =>
              ((backend i).usage.bind fun u => u.output_tokens).getD 0).sum)
            total_tokens := some (((List.range k).map fun i =>
              ((backend i).usage.bind fun u => u.total_tokens).getD 0).sum) } := by
  refine ⟨_, multiParallel_pos k backend nows (by omega), ?_⟩
  simp only [sumTokens_eq_sum, List.map_map]
  rfl

/-- C6 witness: the usage additivity theorem at `k = 3`, with branches
reporting `output_tokens` 10, 12 and missing; the third conjunct checks the
merged sum is 22. -/
theorem parallel_usage_additivity_witness :
    1 < 3
    ∧ (∃ m, multiParallel 3 usageBranches (fun _ => 0) = some m
        ∧ m.usage = some
            { prompt_tokens := some (((List.range 3).map fun i =>
                ((usageBranches i).usage.bind fun u => u.input_tokens).getD 0).sum)
              completion_tokens := some (((List.range 3).map fun i =>
                ((usageBranches i).usage.bind fun u => u.output_tokens).getD 0).sum)
              total_tokens := some (((List.range 3).map fun i =>
                ((usageBranches i).usage.bind fun u => u.total_tokens).getD 0).sum) })
    ∧ (((List.range 3).map fun i =>
          ((usageBranches i).usage.bind fun u => u.output_tokens).getD 0).sum = 22) :=
  ⟨by decide, parallel_usage_additivity 3 usageBranches (fun _ => 0) (by decide),
   by decide⟩

/-! ## Claim C4 — prompt-split post-processing -/

/-- The slice-then-pad step of `_multiPromptSplit` agrees with the spec's
take-then-pad description whenever `n` is non-negative. -/
theorem jsTruncPad_eq_specTruncatePad (l : List String) (n : Int)
    (h : 0 ≤ n) :
    (if (l.length : Int) > n then jsSliceTo l n else l)
        ++ List.replicate
            (n.toNat -
              (if (l.length : Int) > n then jsSliceTo l n else l).length) ""
      = specTruncatePad l n.toNat := by
  by_cases hlen : (l.length : Int) > n
  · have hn : ¬ n < 0 := by omega
    have hle : n.toNat ≤ l.length := by omega
    simp only [if_pos hlen, jsSliceTo, if_neg hn, specTruncatePad,
      List.length_take]
    have h1 : min n.toNat l.length = n.toNat := by omega
    rw [h1]
    have h2 : n.toNat - n.toNat = 0 := by omega
    have h3 : n.toNat - l.length = 0 := by omega
    rw [h2, h3]
  · have hle : l.length ≤ n.toNat := by omega
    simp only [if_neg hlen, specTruncatePad, List.take_of_length_le hle]

/-- C4 (counterexample): with delimiter `"X "` and backend text `"aX bX "`,
the code's whole-text pre-trim removes the trailing space before splitting,
so the second merged choice is `"bX"`, while the pipeline the claim states
(split the flattened text, trim segments, drop empties, truncate/pad)
yields `"b"`. -/
theorem prompt_split_pretrim_counterexample :
    ((multiPromptSplit splitOptsX 2 respTrailingDelim 0).choices.map
        fun c => c.text) = ["a", "bX"]
    ∧ specTruncatePad (specSplitSegments "X " (allText respTrailingDelim)) 2
        = ["a", "b"] := by
  decide

/-- C4 (amended): under the prompt-split strategy with `n > 1` the merged
choices are obtained by first trimming the whole flattened text, then
splitting by the configured delimiter, trimming each segment, dropping
empty segments, truncating to at most `n` segments or padding with empty
strings to exactly `n`, each choice indexed in order with
`finish_reason = "stop"` and `logprobs` null. -/
theorem prompt_split_choices (opts : AdapterOptions) (n : Int)
    (backendResp : ResponsesObject) (now : Nat) (h : 1 < n) :
    (multiPromptSplit opts n backendResp now).choices
      = (specTruncatePad
          (specSplitSegments (effectiveDelimiter opts)
            (jsTrim (allText backendResp))) n.toNat).enum.map fun p =>
          { text := p.2, index := p.1, logprobs := none,
            finish_reason := some "stop" } := by
  simp only [multiPromptSplit]
  rw [jsTruncPad_eq_specTruncatePad _ n (by omega)]
  rfl

/-- C4 witness: the amended prompt-split theorem at the spec's example —
default delimiter, a text with exactly 2 non-empty segments, `n = 4`; the
second conjunct checks the concrete 4 choices. -/
theorem prompt_split_choices_witness :
    ((1 : Int) < 4
      ∧ (multiPromptSplit splitOptsNl 4 respTwoLines 0).choices
        = (specTruncatePad
            (specSplitSegments (effectiveDelimiter splitOptsNl)
              (jsTrim (allText respTwoLines))) (4 : Int).toNat).enum.map fun p =>
            { text := p.2, index := p.1, logprobs := none,
              finish_reason := some "stop" })
    ∧ (multiPromptSplit splitOptsNl 4 respTwoLines 0).choices
      = [⟨"one", 0, none, some "stop"⟩, ⟨"two", 1, none, some "stop"⟩,
         ⟨"", 2, none, some "stop"⟩, ⟨"", 3, none, some "stop"⟩] :=
  ⟨⟨by decide, prompt_split_choices splitOptsNl 4 respTwoLines 0 (by decide)⟩,
   by decide⟩

/-! ## Stream loop lemmas (shared) -/

theorem runStreamLoop_append (l1 l2 : List StreamEvent) (st : StreamLoopState) :
    runStreamLoop (l1 ++ l2) st
      = ((runStreamLoop l1 st).1
          ++ (runStreamLoop l2 (runStreamLoop l1 st).2).1,
         (runStreamLoop l2 (runStreamLoop l1 st).2).2) := by
  induction l1 generalizing st with
  | nil => simp [runStreamLoop]
  | cons e rest ih =>
    cases e <;> simp [runStreamLoop, ih]

theorem runStreamLoop_deltas (deltas : List (String × String))
    (st : StreamLoopState) :
    runStreamLoop
        (deltas.map fun p => StreamEvent.outputTextDelta p.1 (some p.2)) st
      = (deltas.map fun p => StreamOutput.onDelta
            { id := some p.1, object_tag := "text_completion.chunk",
              choices := [{ text := p.2, index := 0, finish_reason := none }] },
         { st with
            fullText := st.fullText ++ String.join (deltas.map fun p => p.2) }) := by
  induction deltas generalizing st with
  | nil => simp [runStreamLoop, String.join]
  | cons p rest ih =>
    simp [runStreamLoop, ih, join_cons, String.append_assoc]

theorem runStreamLoop_no_onDone (events : List StreamEvent)
    (st : StreamLoopState) :
    ∀ o ∈ (runStreamLoop events st).1, isDoneOutput o = false := by
  induction events generalizing st with
  | nil => simp [runStreamLoop]
  | cons e rest ih =>
    intro o ho
    cases e with
    | outputTextDelta iid d =>
      simp only [runStreamLoop, List.mem_cons] at ho
      rcases ho with rfl | ho
      · rfl
      · exact ih _ o ho
    | outputTextDone => exact ih _ o ho
    | completed r => exact ih _ o ho
    | failed p =>
      simp only [runStreamLoop, List.mem_cons] at ho
      rcases ho with rfl | ho
      · rfl
      · exact ih _ o ho
    | otherEvent => exact ih _ o ho

theorem runStreamLoop_final_none (events : List StreamEvent)
    (st : StreamLoopState)
    (h : ∀ e ∈ events, isCompletedEvent e = false) :
    (runStreamLoop events st).2.finalResponse = st.finalResponse := by
  induction events generalizing st with
  | nil => rfl
  | cons e rest ih =>
    have he := h e (List.mem_cons_self e rest)
    have hrest : ∀ x ∈ rest, isCompletedEvent x = false := fun x hx =>
      h x (List.mem_cons_of_mem e hx)
    cases e with
    | outputTextDelta iid d => simpa [runStreamLoop] using ih _ hrest
    | outputTextDone => simpa [runStreamLoop] using ih _ hrest
    | completed r => simp [isCompletedEvent] at he
    | failed p => simpa [runStreamLoop] using ih _ hrest
    | otherEvent => simpa [runStreamLoop] using ih _ hrest

/-! ## Claim C1 — deltas followed by a completed event -/

/-- C1 (counterexample): for the deltas `"Hel"`, `"lo "`, `"world"` followed
by a completed event, the final chunk's choice carries the full accumulated
text `"Hello world"` — not the empty string the claim requires
(src/index.ts:272 overwrites the flattened text with `fullText`). -/
theorem stream_final_chunk_counterexample :
    createCompletionStream sampleReq helloEvents 0
      = [.onDelta ⟨some "i", "text_completion.chunk", [⟨"Hel", 0, none⟩]⟩,
         .onDelta ⟨some "i", "text_completion.chunk", [⟨"lo ", 0, none⟩]⟩,
         .onDelta ⟨some "i", "text_completion.chunk", [⟨"world", 0, none⟩]⟩,
         .onDone ⟨"r0", "text_completion", 5, "m",
           [⟨"Hello world", 0, none, some "stop"⟩], some ⟨none, none, none⟩⟩] := by
  decide

/-- C1 (amended): for every stream of text-delta events followed by one
completed event (whose response has status `"completed"`), the translator
emits exactly one chunk per delta carrying that delta's text in arrival
order with `finish_reason` null, then exactly one final record derived from
flattening the completed response whose single choice carries the full
accumulated text (the concatenation of the deltas) and
`finish_reason = "stop"`. -/
theorem stream_deltas_then_completed (legacyReq : LegacyCompletionRequest)
    (deltas : List (String × String)) (r : ResponsesObject) (now : Nat)
    (h : r.status = "completed") :
    createCompletionStream legacyReq
        ((deltas.map fun p => StreamEvent.outputTextDelta p.1 (some p.2))
          ++ [StreamEvent.completed r]) now
      = (deltas.map fun p => StreamOutput.onDelta
            { id := some p.1, object_tag := "text_completion.chunk",
              choices := [{ text := p.2, index := 0, finish_reason := none }] })
        ++ [StreamOutput.onDone
            { responsesToCompletion r now with
                choices := [{ text := String.join (deltas.map fun p => p.2),
                              index := 0, logprobs := none,
                              finish_reason := some "stop" }] }] := by
  simp only [createCompletionStream, runStreamLoop_append, runStreamLoop_deltas]
  simp only [runStreamLoop, finalizeStream]
  simp [responsesToCompletion, flatChoice, finishReason, h]

/-- C1 witness: the amended streaming theorem at the spec's example
deltas and a concrete completed response. -/
theorem stream_deltas_then_completed_witness :
    respWithCreated.status = "completed"
    ∧ createCompletionStream sampleReq
        (([("i", "Hel"), ("i", "lo "), ("i", "world")].map fun p =>
            StreamEvent.outputTextDelta p.1 (some p.2))
          ++ [StreamEvent.completed respWithCreated]) 0
      = ([("i", "Hel"), ("i", "lo "), ("i", "world")].map fun p =>
            StreamOutput.onDelta
              { id := some p.1, object_tag := "text_completion.chunk",
                choices := [{ text := p.2, index := 0, finish_reason := none }] })
        ++ [StreamOutput.onDone
            { responsesToCompletion respWithCreated 0 with
                choices := [{ text := String.join
                                ([("i", "Hel"), ("i", "lo "), ("i", "world")].map
                                  fun p => p.2),
                              index := 0, logprobs := none,
                              finish_reason := some "stop" }] }] :=
  ⟨rfl, stream_deltas_then_completed sampleReq
    [("i", "Hel"), ("i", "lo "), ("i", "world")] respWithCreated 0 rfl⟩

/-! ## Claim C2 — behaviour on a failed event -/

/-- C2 (counterexample): in a stream where a delta event arrives after the
failed event, the translator surfaces the failure but keeps consuming: the
later delta is read and emits a chunk, and the end-of-stream finalization
still emits a synthetic final record — the `failed` case of the switch does
not leave the loop (src/index.ts:263-265). -/
theorem stream_failed_counterexample :
    createCompletionStream sampleReq failThenDeltaEvents 5
      = [.onError "boom",
         .onDelta ⟨some "i", "text_completion.chunk", [⟨"x", 0, none⟩]⟩,
         .onDone ⟨"unknown", "text_completion", 5, "m",
           [⟨"x", 0, none, some "stop"⟩], some ⟨none, none, none⟩⟩] := by
  decide

/-- C2 (amended): when a failed event arrives, the translator surfaces the
failure payload at that point, but does not stop consuming: the remaining
events are processed exactly as they would be on their own (later deltas
still emit chunks, and the end-of-stream finalization still runs). -/
theorem stream_failed_continues (legacyReq : LegacyCompletionRequest)
    (p : String) (rest : List StreamEvent) (now : Nat) :
    createCompletionStream legacyReq (StreamEvent.failed p :: rest) now
      = StreamOutput.onError p :: createCompletionStream legacyReq rest now := by
  simp [createCompletionStream, runStreamLoop]

/-! ## Claim C7 — stream ending without a completed event -/

/-- C7: for every stream with no completed event (e.g. aborted mid-flight):
if any text was accumulated the translator emits the loop's chunks followed
by exactly one synthetic final record (placeholder id, full accumulated
text, `finish_reason = "stop"`, empty usage) and nothing after it; if no
text was accumulated it emits nothing further; and no final record is ever
emitted by the loop itself. -/
theorem stream_no_completed_synthetic_final
    (legacyReq : LegacyCompletionRequest) (events : List StreamEvent)
    (now : Nat) (h : ∀ e ∈ events, isCompletedEvent e = false) :
    ((streamAccum events).length > 0 →
      createCompletionStream legacyReq events now
        = (runStreamLoop events ⟨none, ""⟩).1
          ++ [StreamOutput.onDone
              (syntheticFinal legacyReq (streamAccum events) now)])
    ∧ ((streamAccum events).length = 0 →
      createCompletionStream legacyReq events now
        = (runStreamLoop events ⟨none, ""⟩).1)
    ∧ ∀ o ∈ (runStreamLoop events ⟨none, ""⟩).1, isDoneOutput o = false := by
  have hfin : (runStreamLoop events ⟨none, ""⟩).2.finalResponse = none :=
    runStreamLoop_final_none events _ h
  refine ⟨?_, ?_, runStreamLoop_no_onDone events _⟩
  · intro hlen
    simp only [streamAccum] at hlen ⊢
    simp only [createCompletionStream, finalizeStream, hfin]
    rw [if_pos hlen]
  · intro hlen
    simp only [streamAccum] at hlen ⊢
    simp only [createCompletionStream, finalizeStream, hfin]
    rw [if_neg (by omega)]
    simp

/-- C7 witness: the abort theorem at the spec's example — one delta
`"partial"` and no completed event. -/
theorem stream_no_completed_synthetic_final_witness :
    (∀ e ∈ abortedEvents, isCompletedEvent e = false)
    ∧ (((streamAccum abortedEvents).length > 0 →
        createCompletionStream sampleReq abortedEvents 9
          = (runStreamLoop abortedEvents ⟨none, ""⟩).1
            ++ [StreamOutput.onDone
                (syntheticFinal sampleReq (streamAccum abortedEvents) 9)])
      ∧ ((streamAccum abortedEvents).length = 0 →
        createCompletionStream sampleReq abortedEvents 9
          = (runStreamLoop abortedEvents ⟨none, ""⟩).1)
      ∧ ∀ o ∈ (runStreamLoop abortedEvents ⟨none, ""⟩).1,
          isDoneOutput o = false) :=
  ⟨by decide,
   stream_no_completed_synthetic_final sampleReq abortedEvents 9 (by decide)⟩

end CompletionCompat
